import Mathlib

/-!
Verification of the express-postgres users CRUD API.

The data-store adapter (user-model) issues five parameterized SQL
statements against a `users(id, name, email)` table; the request
handlers (user-controller) validate presence of `name`/`email`, convert
the `id` path parameter with JavaScript `Number`, invoke the adapter,
and map outcomes to HTTP responses.  The table is embedded as a list of
rows plus the serial sequence counter the store uses to assign ids;
each adapter operation is a function from the database state to its
result together with the successor state, following the semantics of
the SQL statement it issues.
-/

/-- A row of the `users` table: `id` integer primary key assigned by the
store, `name` and `email` text columns. -/
structure User where
  id : Int
  name : String
  email : String
deriving Repr, DecidableEq

/-- The state of the store: the rows of the `users` table in
store-default order, and the serial counter from which the next `id` is
assigned on insert. -/
structure DBState where
  table : List User
  nextId : Int
deriving Repr, DecidableEq

/-- The empty database, with the serial counter at its initial value. -/
def emptyDB : DBState := ⟨[], 1⟩

/-- A JavaScript number as used for the `id` route parameter: either an
integer value or NaN (the result of `Number` on non-numeric text). -/
inductive JSNum where
  | int (i : Int)
  | nan
deriving Repr, DecidableEq

/-- Whether the SQL comparison `id = $1` holds between the bound
parameter and a row's integer `id`: NaN compares equal to nothing. -/
def idMatches (j : JSNum) (rowId : Int) : Bool :=
  match j with
  | .int i => i == rowId
  | .nan => false

/-- The row predicate of the `WHERE id = $1` clause. -/
def matchesId (j : JSNum) (r : User) : Bool := idMatches j r.id

/-- The effect of `SET name = $1, email = $2` on one row. -/
def setFields (name email : String) (r : User) : User :=
  { r with name := name, email := email }

/-- Per-row effect of the UPDATE statement: rows matching the `WHERE`
clause get the new fields, all others are untouched. -/
def updateRow (j : JSNum) (name email : String) (r : User) : User :=
  if matchesId j r then setFields name email r else r

namespace UserModel

/-- `getAllUsers`: `SELECT * FROM users`; returns every row, modifies
nothing. -/
def getAllUsers (s : DBState) : List User × DBState :=
  (s.table, s)

/-- `getUserById`: `SELECT * FROM users WHERE id = $1`, then
`rows.length > 0 ? rows[0] : null` — the first matching row, or `none`.
A SELECT modifies nothing. -/
def getUserById (s : DBState) (id : JSNum) : Option User × DBState :=
  (s.table.find? (matchesId id), s)

/-- `createUser`: `INSERT INTO users (name, email) VALUES ($1, $2)
RETURNING *`; the store assigns the next serial id, appends the row and
returns it. -/
def createUser (s : DBState) (name email : String) : User × DBState :=
  let u : User := ⟨s.nextId, name, email⟩
  (u, ⟨s.table ++ [u], s.nextId + 1⟩)

/-- `updateUser`: `UPDATE users SET name = $1, email = $2 WHERE id = $3
RETURNING *`, then `rows.length > 0 ? rows[0] : null` — every matching
row gets the new fields and the first updated row (or `none`) is
returned. -/
def updateUser (s : DBState) (id : JSNum) (name email : String) :
    Option User × DBState :=
  ((s.table.find? (matchesId id)).map (setFields name email),
   { s with table := s.table.map (updateRow id name email) })

/-- `deleteUser`: `DELETE FROM users WHERE id = $1 RETURNING *`, then
`rows.length > 0 ? rows[0] : null` — every matching row is removed and
the first removed row (or `none`) is returned. -/
def deleteUser (s : DBState) (id : JSNum) : Option User × DBState :=
  (s.table.find? (matchesId id),
   { s with table := s.table.filter (fun r => !(matchesId id r)) })

end UserModel

/-! ### The SQL statements as sent to the store

Each adapter operation calls `pool.query(text, params)`: the statement
text is a string literal and every caller value travels in the `params`
array.  We embed the pair that is handed to the driver. -/

/-- A value bound as a statement parameter. -/
inductive SqlValue where
  | int (i : Int)
  | num (j : JSNum)
  | str (s : String)
deriving Repr, DecidableEq

/-- A parameterized statement as handed to `pool.query`. -/
structure Query where
  text : String
  params : List SqlValue
deriving Repr, DecidableEq

/-- The statement issued by `getAllUsers`. -/
def getAllUsersQuery : Query :=
  ⟨"SELECT * FROM users", []⟩

/-- The statement issued by `getUserById id`. -/
def getUserByIdQuery (id : JSNum) : Query :=
  ⟨"SELECT * FROM users WHERE id = $1", [.num id]⟩

/-- The statement issued by `createUser name email`. -/
def createUserQuery (name email : String) : Query :=
  ⟨"INSERT INTO users (name, email) VALUES ($1, $2) RETURNING *",
   [.str name, .str email]⟩

/-- The statement issued by `updateUser id name email`. -/
def updateUserQuery (id : JSNum) (name email : String) : Query :=
  ⟨"UPDATE users SET name = $1, email = $2 WHERE id = $3 RETURNING *",
   [.str name, .str email, .num id]⟩

/-- The statement issued by `deleteUser id`. -/
def deleteUserQuery (id : JSNum) : Query :=
  ⟨"DELETE FROM users WHERE id = $1 RETURNING *", [.num id]⟩

/-! ### The request handlers (user-controller)

Each handler extracts its inputs, for create/update rejects a missing or
falsy `name`/`email` before any store call, converts the `id` route
parameter with JavaScript `Number`, wraps its single store call in a
try/catch boundary, and sends exactly one response.  A store failure is
modelled by the oracle flag `storeFails`: the statement throws and — a
failed statement never commits — leaves the table untouched.  Each
handler is a total function returning one `Response`, so exactly one
response is sent per request and no error escapes the boundary. -/

/-- Accumulate the value of a decimal digit string. -/
def digitsVal : List Char → Nat → Nat
  | [], acc => acc
  | c :: cs, acc => digitsVal cs (acc * 10 + (c.toNat - 48))

/-- Models the JavaScript `Number(string)` conversion as the controller
applies it to the `id` route parameter: a string of decimal digits,
optionally preceded by a minus sign, converts to that integer (and the
empty string converts to 0, as in JavaScript); any other text yields
NaN.  (Fractional, exponent and hexadecimal forms never denote a stored
integer id and are outside the model.) -/
def jsNumber (s : String) : JSNum :=
  let cs := s.toList
  if cs.isEmpty then JSNum.int 0
  else if cs.all Char.isDigit then JSNum.int (digitsVal cs 0)
  else
    match cs with
    | '-' :: rest =>
        if !rest.isEmpty && rest.all Char.isDigit then
          JSNum.int (-(digitsVal rest 0 : Int))
        else JSNum.nan
    | _ => JSNum.nan

/-- The JSON body of a response. -/
inductive RespBody where
  | users (l : List User)
  | user (u : User)
  | error (msg : String)
  | message (msg : String)
deriving Repr, DecidableEq

/-- An HTTP response: status code and JSON body. -/
structure Response where
  status : Nat
  body : RespBody
deriving Repr, DecidableEq

/-- The request body of create/update: each field is absent (`none`) or
a string. -/
structure ReqBody where
  name : Option String
  email : Option String
deriving Repr, DecidableEq

/-- JavaScript falsiness of a possibly-absent string field, as tested by
`if (!name || !email)`: absent or the empty string. -/
def falsy : Option String → Bool
  | none => true
  | some s => s == ""

namespace Controller

/-- Handler for `GET /api/users`. -/
def getAllUsers (s : DBState) (storeFails : Bool) : Response × DBState :=
  if storeFails then (⟨500, .error "Erro ao obter usuários"⟩, s)
  else
    let (users, s1) := UserModel.getAllUsers s
    (⟨200, .users users⟩, s1)

/-- Handler for `GET /api/users/:id`. -/
def getUserById (s : DBState) (idParam : String) (storeFails : Bool) :
    Response × DBState :=
  if storeFails then (⟨500, .error "Erro ao obter usuário"⟩, s)
  else
    let (found, s1) := UserModel.getUserById s (jsNumber idParam)
    match found with
    | none => (⟨404, .error "Usuário não encontrado"⟩, s1)
    | some u => (⟨200, .user u⟩, s1)

/-- Handler for `POST /api/users`. -/
def createUser (s : DBState) (b : ReqBody) (storeFails : Bool) :
    Response × DBState :=
  if falsy b.name || falsy b.email then
    (⟨400, .error "Nome e email são obrigatórios"⟩, s)
  else if storeFails then (⟨500, .error "Erro ao adicionar usuário"⟩, s)
  else
    let (u, s1) := UserModel.createUser s (b.name.getD "") (b.email.getD "")
    (⟨201, .user u⟩, s1)

/-- Handler for `PUT /api/users/:id`. -/
def updateUser (s : DBState) (idParam : String) (b : ReqBody)
    (storeFails : Bool) : Response × DBState :=
  if falsy b.name || falsy b.email then
    (⟨400, .error "Nome e email são obrigatórios"⟩, s)
  else if storeFails then (⟨500, .error "Erro ao atualizar usuário"⟩, s)
  else
    let (updated, s1) :=
      UserModel.updateUser s (jsNumber idParam) (b.name.getD "") (b.email.getD "")
    match updated with
    | none => (⟨404, .error "Usuário não encontrado"⟩, s1)
    | some u => (⟨200, .user u⟩, s1)

/-- Handler for `DELETE /api/users/:id`. -/
def deleteUser (s : DBState) (idParam : String) (storeFails : Bool) :
    Response × DBState :=
  if storeFails then (⟨500, .error "Erro ao deletar usuário"⟩, s)
  else
    let (deleted, s1) := UserModel.deleteUser s (jsNumber idParam)
    match deleted with
    | none => (⟨404, .error "Usuário não encontrado"⟩, s1)
    | some _ => (⟨200, .message "Usuário deletado com sucesso"⟩, s1)

end Controller

/-! ### Iterated operations and sample states -/

/-- Fold of successive `createUser` calls: the final state together with
the list of created users, in creation order. -/
def createMany (s : DBState) : List (String × String) → DBState × List User
  | [] => (s, [])
  | (n, e) :: rest =>
    let c := UserModel.createUser s n e
    let k := createMany c.2 rest
    (k.1, c.1 :: k.2)

/-- Fold of successive `deleteUser` calls on integer ids. -/
def deleteMany (s : DBState) : List Int → DBState
  | [] => s
  | i :: rest => deleteMany (UserModel.deleteUser s (JSNum.int i)).2 rest

/-- A concrete two-row database used to instantiate theorems. -/
def sampleDB : DBState :=
  ⟨[⟨1, "Ana", "ana@x.com"⟩, ⟨2, "Bo", "bo@x.com"⟩], 3⟩

/-! ### Auxiliary lemmas -/

theorem find?_append_left_none {α : Type} (p : α → Bool) (l1 l2 : List α)
    (h : ∀ r ∈ l1, p r = false) : (l1 ++ l2).find? p = l2.find? p := by
  induction l1 with
  | nil => rfl
  | cons a t ih =>
    have ha : p a = false := h a (List.mem_cons_self a t)
    simp only [List.cons_append, List.find?, ha]
    exact ih fun r hr => h r (List.mem_cons_of_mem a hr)

theorem find?_none_of_forall_false {α : Type} (p : α → Bool) (l : List α)
    (h : ∀ r ∈ l, p r = false) : l.find? p = none := by
  induction l with
  | nil => rfl
  | cons a t ih =>
    have ha : p a = false := h a (List.mem_cons_self a t)
    simp only [List.find?, ha]
    exact ih fun r hr => h r (List.mem_cons_of_mem a hr)

theorem nan_matches_none (l : List User) :
    l.find? (matchesId JSNum.nan) = none :=
  find?_none_of_forall_false _ l fun _ _ => rfl

/-! ### Claim theorems -/

/-- C1: for every adapter operation and every caller-supplied value, the
SQL statement text handed to the store is a fixed constant independent
of those values, and each value appears only in the bound-parameter
list. -/
theorem sql_statements_parameterized :
    (∀ j1 j2 : JSNum, (getUserByIdQuery j1).text = (getUserByIdQuery j2).text)
    ∧ (∀ n1 e1 n2 e2 : String,
        (createUserQuery n1 e1).text = (createUserQuery n2 e2).text)
    ∧ (∀ (j1 j2 : JSNum) (n1 e1 n2 e2 : String),
        (updateUserQuery j1 n1 e1).text = (updateUserQuery j2 n2 e2).text)
    ∧ (∀ j1 j2 : JSNum, (deleteUserQuery j1).text = (deleteUserQuery j2).text)
    ∧ getAllUsersQuery.params = []
    ∧ (∀ j, (getUserByIdQuery j).params = [SqlValue.num j])
    ∧ (∀ n e, (createUserQuery n e).params = [SqlValue.str n, SqlValue.str e])
    ∧ (∀ j n e, (updateUserQuery j n e).params
        = [SqlValue.str n, SqlValue.str e, SqlValue.num j])
    ∧ (∀ j, (deleteUserQuery j).params = [SqlValue.num j]) :=
  ⟨fun _ _ => rfl, fun _ _ _ _ => rfl, fun _ _ _ _ _ _ => rfl, fun _ _ => rfl,
   rfl, fun _ => rfl, fun _ _ => rfl, fun _ _ _ => rfl, fun _ => rfl⟩

/-- C2: for a valid (name, email) pair, creating a user and then looking
up the returned id yields exactly the created user (the serial id being
fresh for the table). -/
theorem create_then_getById (s : DBState) (name email : String)
    (hfresh : ∀ r ∈ s.table, r.id ≠ s.nextId)
    (_hn : name ≠ "") (_he : email ≠ "") :
    (UserModel.getUserById (UserModel.createUser s name email).2
        (JSNum.int (UserModel.createUser s name email).1.id)).1
      = some (UserModel.createUser s name email).1 := by
  simp only [UserModel.createUser, UserModel.getUserById]
  rw [find?_append_left_none]
  · simp [List.find?, matchesId, idMatches]
  · intro r hr
    simp only [matchesId, idMatches, beq_eq_false_iff_ne, ne_eq]
    exact fun hid => hfresh r hr hid.symm

/-- Witness for C2 at a concrete state and pair. -/
theorem create_then_getById_witness :
    (UserModel.getUserById (UserModel.createUser sampleDB "Cle" "cle@x.com").2
        (JSNum.int (UserModel.createUser sampleDB "Cle" "cle@x.com").1.id)).1
      = some (UserModel.createUser sampleDB "Cle" "cle@x.com").1 :=
  create_then_getById sampleDB "Cle" "cle@x.com" (by decide) (by decide) (by decide)

/-- C3: a create or update request whose body has an absent or falsy
`name` or `email` is answered 400 with the fixed error body before any
store call, so the table — in particular its row count — is unchanged. -/
theorem missing_fields_rejected (s : DBState) (b : ReqBody) (idp : String)
    (f : Bool) (h : falsy b.name = true ∨ falsy b.email = true) :
    Controller.createUser s b f
        = (⟨400, .error "Nome e email são obrigatórios"⟩, s)
    ∧ Controller.updateUser s idp b f
        = (⟨400, .error "Nome e email são obrigatórios"⟩, s)
    ∧ (Controller.createUser s b f).2.table.length = s.table.length := by
  have hcond : (falsy b.name || falsy b.email) = true := by
    rcases h with h | h <;> simp [h]
  refine ⟨?_, ?_, ?_⟩ <;>
    simp [Controller.createUser, Controller.updateUser, hcond]

/-- Witness for C3: an empty name is rejected on the sample state. -/
theorem missing_fields_rejected_witness :
    Controller.createUser sampleDB ⟨some "", some "x@y.com"⟩ false
        = (⟨400, .error "Nome e email são obrigatórios"⟩, sampleDB)
    ∧ Controller.updateUser sampleDB "1" ⟨some "", some "x@y.com"⟩ false
        = (⟨400, .error "Nome e email são obrigatórios"⟩, sampleDB)
    ∧ (Controller.createUser sampleDB ⟨some "", some "x@y.com"⟩ false).2.table.length
        = sampleDB.table.length :=
  missing_fields_rejected sampleDB ⟨some "", some "x@y.com"⟩ "1" false
    (Or.inl (by decide))

theorem map_eq_self_of_forall {α : Type} (f : α → α) (l : List α)
    (h : ∀ r ∈ l, f r = r) : l.map f = l := by
  induction l with
  | nil => rfl
  | cons a t ih =>
    simp [h a (List.mem_cons_self a t),
      ih fun r hr => h r (List.mem_cons_of_mem a hr)]

theorem filter_eq_self_of_forall {α : Type} (p : α → Bool) (l : List α)
    (h : ∀ r ∈ l, p r = true) : l.filter p = l := by
  induction l with
  | nil => rfl
  | cons a t ih =>
    simp [List.filter, h a (List.mem_cons_self a t),
      ih fun r hr => h r (List.mem_cons_of_mem a hr)]

/-- C4: update and delete on an id matching no row return absent, the
handlers answer 404, and the table afterwards equals the table before
(in particular update inserts nothing). -/
theorem update_delete_nonexistent (s : DBState) (j : JSNum)
    (name email : String) (idp : String) (b : ReqBody)
    (hmatch : ∀ r ∈ s.table, matchesId j r = false)
    (hidp : jsNumber idp = j)
    (hname : falsy b.name = false) (hemail : falsy b.email = false) :
    (UserModel.updateUser s j name email).1 = none
    ∧ (UserModel.updateUser s j name email).2 = s
    ∧ (UserModel.deleteUser s j).1 = none
    ∧ (UserModel.deleteUser s j).2 = s
    ∧ Controller.updateUser s idp b false
        = (⟨404, .error "Usuário não encontrado"⟩, s)
    ∧ Controller.deleteUser s idp false
        = (⟨404, .error "Usuário não encontrado"⟩, s) := by
  have hfind : s.table.find? (matchesId j) = none :=
    find?_none_of_forall_false _ _ hmatch
  have hmap : ∀ n e, s.table.map (updateRow j n e) = s.table := fun n e =>
    map_eq_self_of_forall _ _ fun r hr => by simp [updateRow, hmatch r hr]
  have hfilter : s.table.filter (fun r => !(matchesId j r)) = s.table :=
    filter_eq_self_of_forall _ _ fun r hr => by simp [hmatch r hr]
  refine ⟨?_, ?_, ?_, ?_, ?_, ?_⟩
  · simp [UserModel.updateUser, hfind]
  · simp [UserModel.updateUser, hmap]
  · simp [UserModel.deleteUser, hfind]
  · simp [UserModel.deleteUser, hfilter]
  · simp [Controller.updateUser, hname, hemail, hidp,
      UserModel.updateUser, hfind, hmap]
  · simp [Controller.deleteUser, hidp, UserModel.deleteUser, hfind, hfilter]

/-- Witness for C4 at id 99, absent from the sample table. -/
theorem update_delete_nonexistent_witness :
    (UserModel.updateUser sampleDB (JSNum.int 99) "N" "n@x.com").1 = none
    ∧ (UserModel.updateUser sampleDB (JSNum.int 99) "N" "n@x.com").2 = sampleDB
    ∧ (UserModel.deleteUser sampleDB (JSNum.int 99)).1 = none
    ∧ (UserModel.deleteUser sampleDB (JSNum.int 99)).2 = sampleDB
    ∧ Controller.updateUser sampleDB "99" ⟨some "N", some "n@x.com"⟩ false
        = (⟨404, .error "Usuário não encontrado"⟩, sampleDB)
    ∧ Controller.deleteUser sampleDB "99" false
        = (⟨404, .error "Usuário não encontrado"⟩, sampleDB) :=
  update_delete_nonexistent sampleDB (JSNum.int 99) "N" "n@x.com" "99"
    ⟨some "N", some "n@x.com"⟩ (by decide) (by decide) (by decide) (by decide)

/-- C5: when delete succeeds for some id, a subsequent getById for that
id on the resulting state returns absent, and the get-by-id handler
answers 404. -/
theorem delete_then_getById (s : DBState) (idp : String) (u : User)
    (_h : (UserModel.deleteUser s (jsNumber idp)).1 = some u) :
    (UserModel.getUserById (UserModel.deleteUser s (jsNumber idp)).2
        (jsNumber idp)).1 = none
    ∧ Controller.getUserById (UserModel.deleteUser s (jsNumber idp)).2 idp false
        = (⟨404, .error "Usuário não encontrado"⟩,
           (UserModel.deleteUser s (jsNumber idp)).2) := by
  have hfind : ((UserModel.deleteUser s (jsNumber idp)).2.table).find?
      (matchesId (jsNumber idp)) = none := by
    apply find?_none_of_forall_false
    intro r hr
    simp only [UserModel.deleteUser, List.mem_filter] at hr
    have := hr.2
    simpa using this
  exact ⟨by simp [UserModel.getUserById, hfind],
    by simp [Controller.getUserById, UserModel.getUserById, hfind]⟩

/-- Witness for C5: deleting id 1 from the sample table succeeds and the
row is gone. -/
theorem delete_then_getById_witness :
    (UserModel.getUserById (UserModel.deleteUser sampleDB (jsNumber "1")).2
        (jsNumber "1")).1 = none
    ∧ Controller.getUserById (UserModel.deleteUser sampleDB (jsNumber "1")).2
        "1" false
        = (⟨404, .error "Usuário não encontrado"⟩,
           (UserModel.deleteUser sampleDB (jsNumber "1")).2) :=
  delete_then_getById sampleDB "1" ⟨1, "Ana", "ana@x.com"⟩ (by decide)

/-- C7: whenever the store call throws, each handler catches the error
inside its try/catch boundary and answers 500 with its own static
message; each handler is a total function into `Response × DBState`, so
exactly one response is produced per request and no error escapes. -/
theorem store_error_yields_500 (s : DBState) (idp : String) (b : ReqBody)
    (hname : falsy b.name = false) (hemail : falsy b.email = false) :
    Controller.getAllUsers s true = (⟨500, .error "Erro ao obter usuários"⟩, s)
    ∧ Controller.getUserById s idp true
        = (⟨500, .error "Erro ao obter usuário"⟩, s)
    ∧ Controller.createUser s b true
        = (⟨500, .error "Erro ao adicionar usuário"⟩, s)
    ∧ Controller.updateUser s idp b true
        = (⟨500, .error "Erro ao atualizar usuário"⟩, s)
    ∧ Controller.deleteUser s idp true
        = (⟨500, .error "Erro ao deletar usuário"⟩, s) := by
  refine ⟨rfl, rfl, ?_, ?_, rfl⟩ <;>
    simp [Controller.createUser, Controller.updateUser, hname, hemail]

/-- Witness for C7 on the sample state with a well-formed body. -/
theorem store_error_yields_500_witness :
    Controller.getAllUsers sampleDB true
        = (⟨500, .error "Erro ao obter usuários"⟩, sampleDB)
    ∧ Controller.getUserById sampleDB "1" true
        = (⟨500, .error "Erro ao obter usuário"⟩, sampleDB)
    ∧ Controller.createUser sampleDB ⟨some "N", some "n@x.com"⟩ true
        = (⟨500, .error "Erro ao adicionar usuário"⟩, sampleDB)
    ∧ Controller.updateUser sampleDB "1" ⟨some "N", some "n@x.com"⟩ true
        = (⟨500, .error "Erro ao atualizar usuário"⟩, sampleDB)
    ∧ Controller.deleteUser sampleDB "1" true
        = (⟨500, .error "Erro ao deletar usuário"⟩, sampleDB) :=
  store_error_yields_500 sampleDB "1" ⟨some "N", some "n@x.com"⟩
    (by decide) (by decide)

/-- C8: a non-numeric id path parameter gets no special handling — the
NaN produced by the conversion is passed to the store call, and the
get-by-id, update and delete handlers answer 404 (no row matches NaN)
or 500 (the store call fails), never 400. -/
theorem malformed_id_no_400 (s : DBState) (idp : String) (b : ReqBody)
    (f : Bool) (hnan : jsNumber idp = JSNum.nan)
    (hname : falsy b.name = false) (hemail : falsy b.email = false) :
    ((Controller.getUserById s idp f).1.status = 404
      ∨ (Controller.getUserById s idp f).1.status = 500)
    ∧ ((Controller.updateUser s idp b f).1.status = 404
      ∨ (Controller.updateUser s idp b f).1.status = 500)
    ∧ ((Controller.deleteUser s idp f).1.status = 404
      ∨ (Controller.deleteUser s idp f).1.status = 500)
    ∧ (Controller.getUserById s idp f).1.status ≠ 400
    ∧ (Controller.updateUser s idp b f).1.status ≠ 400
    ∧ (Controller.deleteUser s idp f).1.status ≠ 400 := by
  have hget : (Controller.getUserById s idp f).1.status = 404
      ∨ (Controller.getUserById s idp f).1.status = 500 := by
    cases f with
    | true => exact Or.inr rfl
    | false =>
      refine Or.inl ?_
      simp [Controller.getUserById, UserModel.getUserById, hnan,
        nan_matches_none]
  have hupd : (Controller.updateUser s idp b f).1.status = 404
      ∨ (Controller.updateUser s idp b f).1.status = 500 := by
    cases f with
    | true =>
      refine Or.inr ?_
      simp [Controller.updateUser, hname, hemail]
    | false =>
      refine Or.inl ?_
      simp [Controller.updateUser, UserModel.updateUser, hname, hemail,
        hnan, nan_matches_none]
  have hdel : (Controller.deleteUser s idp f).1.status = 404
      ∨ (Controller.deleteUser s idp f).1.status = 500 := by
    cases f with
    | true => exact Or.inr rfl
    | false =>
      refine Or.inl ?_
      simp [Controller.deleteUser, UserModel.deleteUser, hnan,
        nan_matches_none]
  refine ⟨hget, hupd, hdel, ?_, ?_, ?_⟩
  · rcases hget with h | h <;> omega
  · rcases hupd with h | h <;> omega
  · rcases hdel with h | h <;> omega

/-- Witness for C8 on the non-numeric id parameter "abc". -/
theorem malformed_id_no_400_witness :
    ((Controller.getUserById sampleDB "abc" false).1.status = 404
      ∨ (Controller.getUserById sampleDB "abc" false).1.status = 500)
    ∧ (Controller.updateUser sampleDB "abc"
        ⟨some "N", some "n@x.com"⟩ false).1.status ≠ 400 :=
  ⟨(malformed_id_no_400 sampleDB "abc" ⟨some "N", some "n@x.com"⟩ false
      (by decide) (by decide) (by decide)).1,
   (malformed_id_no_400 sampleDB "abc" ⟨some "N", some "n@x.com"⟩ false
      (by decide) (by decide) (by decide)).2.2.2.2.1⟩

theorem matchesId_setFields (j : JSNum) (n e : String) (r : User) :
    matchesId j (setFields n e r) = matchesId j r := rfl

theorem matchesId_updateRow (j : JSNum) (n e : String) (r : User) :
    matchesId j (updateRow j n e r) = matchesId j r := by
  by_cases h : matchesId j r = true <;>
    simp [updateRow, h, matchesId_setFields]

theorem updateRow_eq_of_no_match (j : JSNum) (n e : String) (r : User)
    (h : matchesId j r = false) : updateRow j n e r = r := by
  simp [updateRow, h]

theorem updateRow_updateRow (j : JSNum) (n e : String) (r : User) :
    updateRow j n e (updateRow j n e r) = updateRow j n e r := by
  by_cases h : matchesId j r = true
  · simp [updateRow, h, matchesId_setFields, setFields]
  · simp [updateRow, h]

theorem find?_map_of_pred_comm {α : Type} (p : α → Bool) (f : α → α)
    (hp : ∀ a, p (f a) = p a) (l : List α) :
    (l.map f).find? p = (l.find? p).map f := by
  induction l with
  | nil => rfl
  | cons a t ih =>
    by_cases h : p a = true
    · simp [List.find?, hp a, h]
    · have hfa : p a = false := by
        cases hpa : p a
        · rfl
        · exact absurd hpa h
      simp [List.find?, hp a, hfa, ih]

/-- C9: update and delete touch at most the rows matching the given id —
every row with a different id is still present unchanged, delete removes
rows only, and neither changes the serial counter — while getById and
listAll leave the whole state untouched. -/
theorem ops_frame (s : DBState) (j : JSNum) (name email : String) :
    (∀ r ∈ (UserModel.updateUser s j name email).2.table,
        matchesId j r = false → r ∈ s.table)
    ∧ (∀ r ∈ s.table, matchesId j r = false →
        r ∈ (UserModel.updateUser s j name email).2.table)
    ∧ (UserModel.updateUser s j name email).2.table.length = s.table.length
    ∧ (UserModel.updateUser s j name email).2.nextId = s.nextId
    ∧ (∀ r ∈ s.table, matchesId j r = false →
        r ∈ (UserModel.deleteUser s j).2.table)
    ∧ (∀ r ∈ (UserModel.deleteUser s j).2.table, r ∈ s.table)
    ∧ (UserModel.deleteUser s j).2.nextId = s.nextId
    ∧ (UserModel.getUserById s j).2 = s
    ∧ (UserModel.getAllUsers s).2 = s := by
  refine ⟨?_, ?_, ?_, ?_, ?_, ?_, ?_, rfl, rfl⟩
  · intro r hr hm
    simp only [UserModel.updateUser] at hr
    rcases List.mem_map.mp hr with ⟨r0, hr0, hEq⟩
    have h0 : matchesId j r0 = false := by
      rw [← matchesId_updateRow j name email r0, hEq, hm]
    rw [← hEq, updateRow_eq_of_no_match j name email r0 h0]
    exact hr0
  · intro r hr hm
    simp only [UserModel.updateUser]
    have : updateRow j name email r = r :=
      updateRow_eq_of_no_match j name email r hm
    exact this ▸ List.mem_map_of_mem (updateRow j name email) hr
  · simp [UserModel.updateUser]
  · rfl
  · intro r hr hm
    simp only [UserModel.deleteUser]
    exact List.mem_filter.mpr ⟨hr, by simp [hm]⟩
  · intro r hr
    simp only [UserModel.deleteUser] at hr
    exact List.mem_of_mem_filter hr
  · rfl

/-- Witness for C9: the row with id 1 survives an update and a delete
aimed at id 2 on the sample table. -/
theorem ops_frame_witness :
    ⟨1, "Ana", "ana@x.com"⟩
        ∈ (UserModel.updateUser sampleDB (JSNum.int 2) "X" "x@x.com").2.table
    ∧ ⟨1, "Ana", "ana@x.com"⟩
        ∈ (UserModel.deleteUser sampleDB (JSNum.int 2)).2.table :=
  ⟨(ops_frame sampleDB (JSNum.int 2) "X" "x@x.com").2.1
      ⟨1, "Ana", "ana@x.com"⟩ (by decide) (by decide),
   (ops_frame sampleDB (JSNum.int 2) "X" "x@x.com").2.2.2.2.1
      ⟨1, "Ana", "ana@x.com"⟩ (by decide) (by decide)⟩

/-- C10: update is idempotent — a second identical update returns the
same result and leaves the same state as the first. -/
theorem update_idempotent (s : DBState) (j : JSNum) (name email : String) :
    UserModel.updateUser (UserModel.updateUser s j name email).2 j name email
      = UserModel.updateUser s j name email := by
  have hcomp : updateRow j name email ∘ updateRow j name email
      = updateRow j name email :=
    funext fun r => updateRow_updateRow j name email r
  simp only [UserModel.updateUser]
  rw [Prod.ext_iff]
  constructor
  · rw [find?_map_of_pred_comm (matchesId j) (updateRow j name email)
      (matchesId_updateRow j name email) s.table]
    cases hf : s.table.find? (matchesId j) with
    | none => rfl
    | some r =>
      have hr : matchesId j r = true := List.find?_some hf
      have hsf : setFields name email (updateRow j name email r)
          = setFields name email r := by
        simp [updateRow, hr, setFields]
      simp [hsf]
  · simp only []
    rw [List.map_map, hcomp]

theorem createMany_table (prs : List (String × String)) :
    ∀ s : DBState, (createMany s prs).1.table = s.table ++ (createMany s prs).2 := by
  induction prs with
  | nil => intro s; simp [createMany]
  | cons pr rest ih =>
    intro s
    cases pr with
    | mk n e =>
      simp only [createMany]
      rw [ih]
      simp [UserModel.createUser]

theorem createMany_length (prs : List (String × String)) :
    ∀ s : DBState, (createMany s prs).2.length = prs.length := by
  induction prs with
  | nil => intro s; rfl
  | cons pr rest ih =>
    intro s
    cases pr with
    | mk n e => simp [createMany, ih]

theorem createMany_id_lb (prs : List (String × String)) :
    ∀ s : DBState, ∀ u ∈ (createMany s prs).2, s.nextId ≤ u.id := by
  induction prs with
  | nil => intro s u hu; simp [createMany] at hu
  | cons pr rest ih =>
    intro s u hu
    cases pr with
    | mk n e =>
      simp only [createMany, List.mem_cons] at hu
      rcases hu with hu | hu
      · subst hu; simp [UserModel.createUser]
      · have := ih (UserModel.createUser s n e).2 u hu
        simp only [UserModel.createUser] at this
        omega

theorem createMany_ids_nodup (prs : List (String × String)) :
    ∀ s : DBState, ((createMany s prs).2.map (fun u => u.id)).Nodup := by
  induction prs with
  | nil => intro s; simp [createMany]
  | cons pr rest ih =>
    intro s
    cases pr with
    | mk n e =>
      simp only [createMany, List.map_cons, List.nodup_cons]
      refine ⟨?_, ih (UserModel.createUser s n e).2⟩
      intro hmem
      rcases List.mem_map.mp hmem with ⟨u, hu, hid⟩
      have := createMany_id_lb rest (UserModel.createUser s n e).2 u hu
      simp only [UserModel.createUser] at this hid
      omega

theorem deleteMany_nextId (ids : List Int) :
    ∀ s : DBState, (deleteMany s ids).nextId = s.nextId := by
  induction ids with
  | nil => intro s; rfl
  | cons i rest ih =>
    intro s
    simp only [deleteMany]
    rw [ih]
    rfl

theorem deleteMany_table (ids : List Int) :
    ∀ s : DBState, (deleteMany s ids).table
      = s.table.filter (fun r => !(ids.contains r.id)) := by
  induction ids with
  | nil => intro s; simp [deleteMany]
  | cons i rest ih =>
    intro s
    simp only [deleteMany]
    rw [ih]
    simp only [UserModel.deleteUser]
    rw [List.filter_filter]
    apply List.filter_congr
    intro r _
    by_cases hib : i = r.id
    · simp [matchesId, idMatches, List.contains_cons, hib]
    · have hbi : r.id ≠ i := fun h => hib h.symm
      simp [matchesId, idMatches, List.contains_cons, hib, hbi]

theorem filter_ne_length (i : Int) :
    ∀ table : List User, ((table.map (fun u => u.id)).Nodup) →
      i ∈ table.map (fun u => u.id) →
      (table.filter (fun r => !(r.id == i))).length = table.length - 1 := by
  intro table
  induction table with
  | nil => intro _ hmem; simp at hmem
  | cons u t ih =>
    intro hnd hmem
    simp only [List.map_cons, List.nodup_cons] at hnd
    by_cases hui : u.id = i
    · have hall : t.filter (fun r => !(r.id == i)) = t := by
        apply filter_eq_self_of_forall
        intro r hr
        have : r.id ≠ i := by
          intro hri
          apply hnd.1
          have hur : u.id = r.id := by rw [hui, hri]
          rw [hur]
          exact List.mem_map_of_mem (fun u => u.id) hr
        simp [this]
      simp [List.filter, hui, hall]
    · have hmem2 : i ∈ t.map (fun u => u.id) := by
        simp only [List.map_cons, List.mem_cons] at hmem
        rcases hmem with h | h
        · exact absurd h.symm hui
        · exact h
      have hpos : 0 < t.length := by
        rcases List.mem_map.mp hmem2 with ⟨r, hr, _⟩
        exact List.length_pos.mpr (List.ne_nil_of_mem hr)
      have := ih hnd.2 hmem2
      have hne : (u.id == i) = false := by simp [hui]
      simp only [List.filter, hne, Bool.not_false, List.length_cons]
      omega

theorem filter_out_ids_length (ids : List Int) :
    ∀ table : List User, (table.map (fun u => u.id)).Nodup → ids.Nodup →
      (∀ i ∈ ids, i ∈ table.map (fun u => u.id)) →
      (table.filter (fun r => !(ids.contains r.id))).length
        = table.length - ids.length := by
  induction ids with
  | nil => intro table _ _ _; simp
  | cons i rest ih =>
    intro table hT hnd hsub
    simp only [List.nodup_cons] at hnd
    have hstep : table.filter (fun r => !((i :: rest).contains r.id))
        = (table.filter (fun r => !(r.id == i))).filter
            (fun r => !(rest.contains r.id)) := by
      rw [List.filter_filter]
      apply List.filter_congr
      intro r _
      by_cases hib : r.id = i
      · simp [List.contains_cons, hib]
      · simp [List.contains_cons, hib]
    set t1 := table.filter (fun r => !(r.id == i)) with ht1
    have hT1 : (t1.map (fun u => u.id)).Nodup := by
      have hsl : t1.Sublist table := List.filter_sublist table
      exact List.Nodup.sublist (List.Sublist.map (fun u => u.id) hsl) hT
    have hsub1 : ∀ x ∈ rest, x ∈ t1.map (fun u => u.id) := by
      intro x hx
      have hxt : x ∈ table.map (fun u => u.id) :=
        hsub x (List.mem_cons_of_mem i hx)
      rcases List.mem_map.mp hxt with ⟨r, hr, hrid⟩
      have hxi : x ≠ i := fun h => hnd.1 (h ▸ hx)
      have hri : (r.id == i) = false := by
        simp [hrid, hxi]
      refine List.mem_map.mpr ⟨r, ?_, hrid⟩
      rw [ht1]
      exact List.mem_filter.mpr ⟨hr, by simp [hri]⟩
    have hlen1 : t1.length = table.length - 1 :=
      filter_ne_length i table hT (hsub i (List.mem_cons_self i rest))
    have hmain := ih t1 hT1 hnd.2 hsub1
    rw [hstep, hmain, hlen1]
    simp only [List.length_cons]
    omega

/-- C6: from the empty database, N creates followed by deletes of M
distinct created ids leave exactly N − M rows; every listed row carries
the id, name and email of a created-and-not-deleted user; and listAll
returns every row of the table. -/
theorem listAll_after_creates_and_deletes (prs : List (String × String))
    (ids : List Int) (hnd : ids.Nodup)
    (hsub : ∀ i ∈ ids, i ∈ (createMany emptyDB prs).2.map (fun u => u.id)) :
    (UserModel.getAllUsers (deleteMany (createMany emptyDB prs).1 ids)).1.length
        = prs.length - ids.length
    ∧ (∀ r ∈ (UserModel.getAllUsers
          (deleteMany (createMany emptyDB prs).1 ids)).1,
        r ∈ (createMany emptyDB prs).2 ∧ ids.contains r.id = false)
    ∧ (∀ t : DBState, (UserModel.getAllUsers t).1 = t.table) := by
  have htab : (createMany emptyDB prs).1.table = (createMany emptyDB prs).2 := by
    rw [createMany_table prs emptyDB]
    simp [emptyDB]
  have hdel : (deleteMany (createMany emptyDB prs).1 ids).table
      = (createMany emptyDB prs).2.filter (fun r => !(ids.contains r.id)) := by
    rw [deleteMany_table ids, htab]
  refine ⟨?_, ?_, fun t => rfl⟩
  · show (deleteMany (createMany emptyDB prs).1 ids).table.length = _
    rw [hdel,
      filter_out_ids_length ids _ (createMany_ids_nodup prs emptyDB) hnd hsub,
      createMany_length prs emptyDB]
  · intro r hr
    have hr2 : r ∈ (createMany emptyDB prs).2.filter
        (fun u => !(ids.contains u.id)) := by
      rw [← hdel]
      exact hr
    have hmf := List.mem_filter.mp hr2
    exact ⟨hmf.1, by simpa using hmf.2⟩

/-- Witness for C6: three creates then one delete leave two rows. -/
theorem listAll_after_creates_and_deletes_witness :
    (UserModel.getAllUsers (deleteMany
        (createMany emptyDB [("a", "a@x"), ("b", "b@x"), ("c", "c@x")]).1
        [2])).1.length = 2 :=
  (listAll_after_creates_and_deletes
    [("a", "a@x"), ("b", "b@x"), ("c", "c@x")] [2]
    (by decide) (by decide)).1
